import Mathlib

/-!
# checkSSE2: exit status of the SSE2 probe

A shallow embedding of `src/checkSSE2/main.c`.  The program runs three
instructions of inline assembly (`mov $1, %eax`, `cpuid`, `mov %edx, %0`),
stores the output operand in the `int` variable `features`, and returns `0`
when `features & (1 << 26)` is non-zero and `1` otherwise.

Registers are natural numbers reduced modulo `2 ^ 32` on every write; the C
`int` is an integer obtained from the register pattern by the two's-complement
reading.  The processor is a function from the leaf number in `%eax` to the
four registers `cpuid` writes.  The output streams and the list of leaves
queried so far are carried in the machine state so that frame properties can
be stated.
-/

set_option linter.unusedVariables false

namespace CheckSSE2

/-! ## Machine words and the C `int` -/

/-- Largest value of a 32-bit C `int`. -/
def INT_MAX : Int := 2 ^ 31 - 1

/-- Smallest value of a 32-bit C `int`. -/
def INT_MIN : Int := -(2 ^ 31)

/-- Value kept by a 32-bit register when `n` is written to it. -/
def wrap32 (n : Nat) : Nat := n % 2 ^ 32

/-- Two's-complement reading of a 32-bit register pattern as a C `int`:
patterns below `2 ^ 31` are themselves, the others are negative. -/
def toInt32 (u : Nat) : Int :=
  if u % 2 ^ 32 < 2 ^ 31 then ((u % 2 ^ 32 : Nat) : Int)
  else ((u % 2 ^ 32 : Nat) : Int) - 2 ^ 32

/-! ## The processor and the machine state -/

/-- The four registers written by one execution of `cpuid`. -/
structure CpuidResult where
  eax : Nat
  ebx : Nat
  ecx : Nat
  edx : Nat

/-- Bytes written so far to the two output streams of the process. -/
structure Streams where
  stdout : List Nat
  stderr : List Nat
deriving DecidableEq

/-- State the program runs in: the processor's answer to every `cpuid` leaf,
the registers the assembly touches, the register the compiler chose for output
operand `%0`, the leaves queried so far, and the output streams. -/
structure Machine where
  cpu : Nat → CpuidResult
  eax : Nat
  ebx : Nat
  ecx : Nat
  edx : Nat
  op0 : Nat
  queried : List Nat
  streams : Streams

/-- Instructions that occur in the `asm` statement of `main`. -/
inductive Instr where
  | movImmEax (imm : Nat)
  | cpuid
  | movEdxOp0

/-- Effect of one instruction.  `mov $imm, %eax` loads the immediate,
`cpuid` reads the leaf from `%eax`, records it and overwrites the four
registers, `mov %edx, %0` copies `%edx` to the output operand. -/
def step (m : Machine) : Instr → Machine
  | Instr.movImmEax imm => { m with eax := wrap32 imm }
  | Instr.cpuid =>
    { m with
      eax := wrap32 (m.cpu m.eax).eax
      ebx := wrap32 (m.cpu m.eax).ebx
      ecx := wrap32 (m.cpu m.eax).ecx
      edx := wrap32 (m.cpu m.eax).edx
      queried := m.queried ++ [m.eax] }
  | Instr.movEdxOp0 => { m with op0 := m.edx }

/-- The template of the `asm` statement, in order. -/
def asmBody : List Instr :=
  [Instr.movImmEax 1, Instr.cpuid, Instr.movEdxOp0]

/-- Run a sequence of instructions from left to right. -/
def runAsm (m : Machine) : List Instr → Machine
  | [] => m
  | i :: rest => runAsm (step m i) rest

/-! ## The program -/

/-- The function `main` of `main.c`: the exit status together with the machine
state it leaves behind.  `features` receives output operand `%0` of the `asm`
statement; the `if` tests `features & (1 << 26)` against zero. -/
def main (argc : Int) (argv : List String) (m : Machine) : Int × Machine :=
  let m1 := runAsm m asmBody
  let features : Int := toInt32 m1.op0
  if Int.land features ((1 : Int) <<< (26 : Int)) ≠ 0 then (0, m1) else (1, m1)

/-- A machine in an arbitrary start state whose processor answers leaf 1 with
`r` and every other leaf with `other`. -/
def machineWith (r other : CpuidResult) (s : Streams) : Machine where
  cpu := fun leaf => if leaf = 1 then r else other
  eax := 0xdeadbeef
  ebx := 7
  ecx := 0xffffffff
  edx := 0
  op0 := 0x12345678
  queried := []
  streams := s

/-- Leaf-1 answer of a processor with SSE2: bits 26 and 31 of `edx` are set. -/
def leaf1WithSSE2 : CpuidResult := ⟨0x000306a9, 0x00100800, 0x7fbae3ff, 0xbfebfbff⟩

/-- Leaf-1 answer of a processor with SSE but without SSE2: bit 25 of `edx` is
set, bit 26 is clear. -/
def leaf1NoSSE2 : CpuidResult := ⟨0x00000673, 0x00000000, 0x00000000, 0x0383fbff⟩

/-- Leaf-1 answer that agrees with `leaf1WithSSE2` on bit 26 of `edx` and on
nothing else: every register differs and bit 31 of `edx` is clear. -/
def leaf1OnlyBit26 : CpuidResult := ⟨0, 0xffffffff, 0, 0x04000000⟩

/-- Answer given to the leaves other than 1 in the sample machines. -/
def leafOther : CpuidResult := ⟨0x0000000d, 0x756e6547, 0x6c65746e, 0x49656e69⟩

/-- Streams that already hold some output before `main` starts. -/
def someOutput : Streams := ⟨[104, 105, 10], [33]⟩

/-! ## Arithmetic of the bit test -/

theorem shl_one_26 : ((1 : Int) <<< (26 : Int)) = ((2 ^ 26 : Nat) : Int) :=
  Int.one_shiftLeft 26

theorem testBit_toInt32 (u k : Nat) (hk : k < 32) :
    Int.testBit (toInt32 u) k = Nat.testBit u k := by
  unfold toInt32
  split
  · show Nat.testBit (u % 2 ^ 32) k = Nat.testBit u k
    rw [Nat.testBit_mod_two_pow]
    simp [hk]
  · rename_i h
    have hlt : u % 2 ^ 32 < 2 ^ 32 := Nat.mod_lt _ (by norm_num)
    have hneg : ((u % 2 ^ 32 : Nat) : Int) - 2 ^ 32
        = Int.negSucc (2 ^ 32 - (u % 2 ^ 32 + 1)) := by
      rw [Int.negSucc_eq]
      omega
    rw [hneg]
    show (!Nat.testBit (2 ^ 32 - (u % 2 ^ 32 + 1)) k) = Nat.testBit u k
    rw [Nat.testBit_two_pow_sub_succ hlt, Nat.testBit_mod_two_pow]
    simp [hk]

theorem land_two_pow_ne_zero_iff (x : Int) (k : Nat) :
    Int.land x ((2 ^ k : Nat) : Int) ≠ 0 ↔ Int.testBit x k = true := by
  constructor
  · intro h
    by_contra hb
    apply h
    have hnn : ∃ n : Nat, Int.land x ((2 ^ k : Nat) : Int) = (n : Int) := by
      cases x with
      | ofNat m => exact ⟨_, rfl⟩
      | negSucc m => exact ⟨_, rfl⟩
    obtain ⟨n, hn⟩ := hnn
    rw [hn]
    have hz : n = 0 := by
      apply Nat.eq_of_testBit_eq
      intro i
      have hi : Int.testBit (Int.land x ((2 ^ k : Nat) : Int)) i = Nat.testBit n i := by
        rw [hn]; rfl
      rw [← hi, Int.testBit_land]
      simp only [Int.testBit, Nat.zero_testBit]
      by_cases hik : k = i
      · subst hik
        simp [Int.testBit] at hb ⊢
        simp [hb]
      · simp [Nat.testBit_two_pow, hik]
    simp [hz]
  · intro hb h
    have := Int.testBit_land x ((2 ^ k : Nat) : Int) k
    rw [h, hb] at this
    simp [Int.testBit, Nat.testBit_two_pow_self] at this

theorem bit_test_iff (u : Nat) :
    Int.land (toInt32 u) ((1 : Int) <<< (26 : Int)) ≠ 0 ↔ Nat.testBit u 26 = true := by
  rw [shl_one_26, land_two_pow_ne_zero_iff, testBit_toInt32 u 26 (by norm_num)]

/-! ## What the `asm` statement leaves behind -/

theorem runAsm_asmBody (m : Machine) :
    runAsm m asmBody =
      { m with
        eax := wrap32 (m.cpu 1).eax
        ebx := wrap32 (m.cpu 1).ebx
        ecx := wrap32 (m.cpu 1).ecx
        edx := wrap32 (m.cpu 1).edx
        op0 := wrap32 (m.cpu 1).edx
        queried := m.queried ++ [1] } := rfl

theorem main_snd (argc : Int) (argv : List String) (m : Machine) :
    (main argc argv m).2 = runAsm m asmBody := by
  unfold main
  dsimp only
  split <;> rfl

theorem testBit_wrap32 (u k : Nat) (hk : k < 32) :
    Nat.testBit (wrap32 u) k = Nat.testBit u k := by
  unfold wrap32
  rw [Nat.testBit_mod_two_pow]
  simp [hk]

theorem main_fst (argc : Int) (argv : List String) (m : Machine) :
    (main argc argv m).1 = if Nat.testBit (m.cpu 1).edx 26 = true then 0 else 1 := by
  have hiff := bit_test_iff (runAsm m asmBody).op0
  have hop : Nat.testBit (runAsm m asmBody).op0 26 = Nat.testBit (m.cpu 1).edx 26 := by
    rw [runAsm_asmBody]
    exact testBit_wrap32 _ 26 (by norm_num)
  rw [hop] at hiff
  unfold main
  dsimp only
  by_cases hb : Nat.testBit (m.cpu 1).edx 26 = true
  · rw [if_pos (hiff.mpr hb), if_pos hb]
  · rw [if_neg (fun h => hb (hiff.mp h)), if_neg hb]

/-! ## The claims -/

/-- C1: when bit 26 of the feature bitmask that `cpuid` leaf 1 returns in
`edx` is set, `main` returns exit status 0, whatever its arguments and the
rest of the machine state.  The register keeps the low 32 bits of what is
written to it, so the statement needs no bound on the value and covers every
32-bit bitmask. -/
theorem C1_bit26_set_exit_zero (argc : Int) (argv : List String) (m : Machine)
    (hbit : Nat.testBit (m.cpu 1).edx 26 = true) :
    (main argc argv m).1 = 0 := by
  rw [main_fst, if_pos hbit]

/-- C1 at a concrete machine: a processor whose leaf-1 `edx` is `0xbfebfbff`
(bits 26 and 31 set) makes `main` return 0. -/
theorem C1_bit26_set_exit_zero_witness :
    ((machineWith leaf1WithSSE2 leafOther someOutput).cpu 1).edx < 2 ^ 32 ∧
    Nat.testBit ((machineWith leaf1WithSSE2 leafOther someOutput).cpu 1).edx 26 = true ∧
    (main 1 ["checkSSE2"] (machineWith leaf1WithSSE2 leafOther someOutput)).1 = 0 :=
  ⟨by decide, by decide,
    C1_bit26_set_exit_zero 1 ["checkSSE2"] (machineWith leaf1WithSSE2 leafOther someOutput)
      (by decide)⟩

/-- C2: when bit 26 of the feature bitmask that `cpuid` leaf 1 returns in
`edx` is clear, `main` returns exit status 1, whatever its arguments and the
rest of the machine state.  The statement needs no bound on the value and so
covers every 32-bit bitmask. -/
theorem C2_bit26_clear_exit_one (argc : Int) (argv : List String) (m : Machine)
    (hbit : Nat.testBit (m.cpu 1).edx 26 = false) :
    (main argc argv m).1 = 1 := by
  rw [main_fst, if_neg (by simp [hbit])]

/-- C2 at a concrete machine: a processor whose leaf-1 `edx` is `0x0383fbff`
(bit 25 set, bit 26 clear) makes `main` return 1. -/
theorem C2_bit26_clear_exit_one_witness :
    ((machineWith leaf1NoSSE2 leafOther someOutput).cpu 1).edx < 2 ^ 32 ∧
    Nat.testBit ((machineWith leaf1NoSSE2 leafOther someOutput).cpu 1).edx 26 = false ∧
    (main 1 ["checkSSE2"] (machineWith leaf1NoSSE2 leafOther someOutput)).1 = 1 :=
  ⟨by decide, by decide,
    C2_bit26_clear_exit_one 1 ["checkSSE2"] (machineWith leaf1NoSSE2 leafOther someOutput)
      (by decide)⟩

/-- C3: `main` ignores its command-line arguments: from the same machine
state, any two argument vectors, the empty one included, give the same exit
status. -/
theorem C3_arguments_ignored (argc argc' : Int) (argv argv' : List String) (m : Machine) :
    (main argc argv m).1 = (main argc' argv' m).1 ∧
    (main argc argv m).1 = (main 0 [] m).1 := by
  simp only [main_fst, and_self]

/-- C4: the exit status is determined by the leaf-1 feature bitmask alone.
Two runs of `main` that observe the same bitmask return the same status,
whatever else differs between the two machine states and argument vectors;
in particular a second run started in the state the first run left behind
returns the status of the first. -/
theorem C4_exit_determined_by_bitmask (argc argc' : Int) (argv argv' : List String)
    (m m' : Machine) (h : (m.cpu 1).edx = (m'.cpu 1).edx) :
    (main argc argv m).1 = (main argc' argv' m').1 ∧
    (main argc' argv' (main argc argv m).2).1 = (main argc argv m).1 := by
  refine ⟨by simp only [main_fst, h], ?_⟩
  rw [main_fst, main_fst, main_snd, runAsm_asmBody]

/-- C4 at two concrete machines that share the leaf-1 `edx` value and differ in
the other registers, the other leaves, the streams and the arguments. -/
theorem C4_exit_determined_by_bitmask_witness :
    ((machineWith leaf1WithSSE2 leafOther someOutput).cpu 1).edx
      = ((machineWith { leaf1OnlyBit26 with edx := 0xbfebfbff } leaf1NoSSE2 ⟨[], []⟩).cpu 1).edx ∧
    ((main 1 ["checkSSE2"] (machineWith leaf1WithSSE2 leafOther someOutput)).1
      = (main 3 ["a", "b", "c"]
          (machineWith { leaf1OnlyBit26 with edx := 0xbfebfbff } leaf1NoSSE2 ⟨[], []⟩)).1 ∧
     (main 3 ["a", "b", "c"]
        (main 1 ["checkSSE2"] (machineWith leaf1WithSSE2 leafOther someOutput)).2).1
      = (main 1 ["checkSSE2"] (machineWith leaf1WithSSE2 leafOther someOutput)).1) :=
  ⟨by decide,
    C4_exit_determined_by_bitmask 1 3 ["checkSSE2"] ["a", "b", "c"]
      (machineWith leaf1WithSSE2 leafOther someOutput)
      (machineWith { leaf1OnlyBit26 with edx := 0xbfebfbff } leaf1NoSSE2 ⟨[], []⟩)
      (by decide)⟩

/-- C5: `main` writes nothing to standard output or standard error: for every
machine state and every argument vector the two streams after `main` are the
streams before it, whichever status is returned. -/
theorem C5_streams_unchanged (argc : Int) (argv : List String) (m : Machine) :
    (main argc argv m).2.streams = m.streams := by
  rw [main_snd, runAsm_asmBody]

/-- C6: `main` is a total function of the machine state: it returns a status
together with a final state, and the status is exactly 0 or 1. -/
theorem C6_exit_zero_or_one (argc : Int) (argv : List String) (m : Machine) :
    ∃ (status : Int) (m' : Machine),
      main argc argv m = (status, m') ∧ (status = 0 ∨ status = 1) := by
  refine ⟨(main argc argv m).1, (main argc argv m).2, rfl, ?_⟩
  rw [main_fst]
  split
  · exact Or.inl rfl
  · exact Or.inr rfl

/-- C7: with the processor a function from the leaf number to the registers
`eax`, `ebx`, `ecx`, `edx`, `main` adds exactly one query, of leaf 1, to the
leaves queried; its exit status is 0 exactly when bit 26 of the `edx` answer
of leaf 1 is set; and replacing the `eax`, `ebx`, `ecx` answers of leaf 1 and
the whole answer of every other leaf by those of any other processor `c`
leaves the exit status unchanged. -/
theorem C7_only_leaf1_edx_bit26 (argc : Int) (argv : List String) (m : Machine)
    (c : Nat → CpuidResult) :
    (main argc argv m).2.queried = m.queried ++ [1] ∧
    ((main argc argv m).1 = 0 ↔ Nat.testBit (m.cpu 1).edx 26 = true) ∧
    (main argc argv
        { m with cpu := fun leaf =>
            if leaf = 1 then { c 1 with edx := (m.cpu 1).edx } else c leaf }).1
      = (main argc argv m).1 := by
  refine ⟨by rw [main_snd, runAsm_asmBody], ?_, ?_⟩
  · rw [main_fst]
    by_cases hb : Nat.testBit (m.cpu 1).edx 26 = true
    · simp [hb]
    · simp [hb]
  · rw [main_fst, main_fst]
    rfl

/-- C8: the exit status depends on bit 26 only: two machines whose leaf-1
feature bitmasks agree on bit 26 give the same exit status, however the
bitmasks differ on the other bits, bit 31 included. -/
theorem C8_depends_on_bit26_only (argc : Int) (argv : List String) (m m' : Machine)
    (h : Nat.testBit (m.cpu 1).edx 26 = Nat.testBit (m'.cpu 1).edx 26) :
    (main argc argv m).1 = (main argc argv m').1 := by
  rw [main_fst, main_fst, h]

/-- C8 at two concrete machines whose leaf-1 `edx` values agree on bit 26 and
differ on bit 31. -/
theorem C8_depends_on_bit26_only_witness :
    Nat.testBit ((machineWith leaf1WithSSE2 leafOther someOutput).cpu 1).edx 26
      = Nat.testBit ((machineWith leaf1OnlyBit26 leafOther someOutput).cpu 1).edx 26 ∧
    Nat.testBit ((machineWith leaf1WithSSE2 leafOther someOutput).cpu 1).edx 31
      ≠ Nat.testBit ((machineWith leaf1OnlyBit26 leafOther someOutput).cpu 1).edx 31 ∧
    (main 1 ["checkSSE2"] (machineWith leaf1WithSSE2 leafOther someOutput)).1
      = (main 1 ["checkSSE2"] (machineWith leaf1OnlyBit26 leafOther someOutput)).1 :=
  ⟨by decide, by decide,
    C8_depends_on_bit26_only 1 ["checkSSE2"]
      (machineWith leaf1WithSSE2 leafOther someOutput)
      (machineWith leaf1OnlyBit26 leafOther someOutput) (by decide)⟩

/-- C9: the mask `1 << 26` is 67108864 and lies within the range of a 32-bit
`int`; for every register pattern `u` the two's-complement value of `features`
lies within that range, is negative exactly when bit 31 of `u` is set, and
`features & (1 << 26)` is non-zero exactly when bit 26 of `u` is set. -/
theorem C9_bit_test_sound_on_signed (u : Nat) :
    ((1 : Int) <<< (26 : Int)) = 67108864 ∧
    INT_MIN ≤ ((1 : Int) <<< (26 : Int)) ∧ ((1 : Int) <<< (26 : Int)) ≤ INT_MAX ∧
    INT_MIN ≤ toInt32 u ∧ toInt32 u ≤ INT_MAX ∧
    (toInt32 u < 0 ↔ Nat.testBit u 31 = true) ∧
    (Int.land (toInt32 u) ((1 : Int) <<< (26 : Int)) ≠ 0 ↔ Nat.testBit u 26 = true) := by
  have hmask : ((1 : Int) <<< (26 : Int)) = 67108864 := by
    rw [shl_one_26]; norm_num
  refine ⟨hmask, ?_, ?_, ?_, ?_, ?_, bit_test_iff u⟩
  · rw [hmask]; unfold INT_MIN; norm_num
  · rw [hmask]; unfold INT_MAX; norm_num
  · unfold toInt32 INT_MIN; split <;> omega
  · unfold toInt32 INT_MAX; split <;> omega
  · rw [← testBit_toInt32 u 31 (by norm_num)]
    unfold toInt32
    split
    · rename_i hlt
      constructor
      · intro hneg; omega
      · intro hb
        have : Nat.testBit (u % 2 ^ 32) 31 = true := hb
        have hlt2 := Nat.testBit_lt_two_pow hlt
        rw [this] at hlt2
        exact absurd hlt2 (by simp)
    · rename_i hge
      have hlt : u % 2 ^ 32 < 2 ^ 32 := Nat.mod_lt _ (by norm_num)
      have hneg : ((u % 2 ^ 32 : Nat) : Int) - 2 ^ 32
          = Int.negSucc (2 ^ 32 - (u % 2 ^ 32 + 1)) := by
        rw [Int.negSucc_eq]
        omega
      constructor
      · intro _
        rw [hneg]
        show (!Nat.testBit (2 ^ 32 - (u % 2 ^ 32 + 1)) 31) = true
        have hsmall : 2 ^ 32 - (u % 2 ^ 32 + 1) < 2 ^ 31 := by omega
        rw [Nat.testBit_lt_two_pow hsmall]
        rfl
      · intro _; omega

end CheckSSE2
